import Mathlib

/-!
Shallow embedding of the MCP client module (src/app/mcp_client.py) and proofs
of the specification claims about it.

Python JSON values are modelled by the inductive `Json` (Python `None` is
`Json.null`).  Python dicts that the client keeps per server name
(`servers`, `active_processes`, `response_queues`, `_id_counters`,
`_counter_locks`) are modelled as association lists with `dictGet`,
`dictSet` and `dictRemove` mirroring `d.get(k)`, `d[k] = v` and
`del d[k]` / `d.pop(k, None)`.
-/

/-- JSON values as produced by Python's json.loads; Python None is null. -/
inductive Json : Type where
  | null : Json
  | bool : Bool → Json
  | num : Int → Json
  | str : String → Json
  | arr : List Json → Json
  | obj : List (String × Json) → Json

/-- Key lookup in a JSON object binding list: first binding wins, as in a
Python dict (which cannot hold duplicate keys). -/
def kvGet : List (String × Json) → String → Option Json
  | [], _ => none
  | (k, v) :: rest, key => if k = key then some v else kvGet rest key

/-- Python dict .get(k) on a JSON value: none when not an object or key
absent. -/
def Json.get? : Json → String → Option Json
  | .obj kvs, key => kvGet kvs key
  | _, _ => none

/-- Python membership test (k in d) for a JSON object. -/
def Json.hasKey (j : Json) (key : String) : Bool :=
  (j.get? key).isSome

/-- Python isinstance(x, dict). -/
def Json.isDict : Json → Bool
  | .obj _ => true
  | _ => false

/-- Python isinstance(x, list). -/
def Json.isList : Json → Bool
  | .arr _ => true
  | _ => false

/-- Python isinstance(x, str). -/
def Json.isStr : Json → Bool
  | .str _ => true
  | _ => false

/-- Python truthiness of a JSON value: None, False, 0, empty string, empty
list and empty dict are falsy, everything else truthy. -/
def Json.truthy : Json → Bool
  | .null => false
  | .bool b => b
  | .num n => n != 0
  | .str s => s ≠ ""
  | .arr xs => !xs.isEmpty
  | .obj kvs => !kvs.isEmpty

/-- Python "a or b" on JSON values: a if a is truthy, else b. -/
def pyOr (a b : Json) : Json :=
  if a.truthy then a else b

/-- Lookup in one of the client's per-server-name dicts (d.get(k)). -/
def dictGet {α : Type} : List (String × α) → String → Option α
  | [], _ => none
  | (k, v) :: rest, key => if k = key then some v else dictGet rest key

/-- Assignment d[k] = v in a Python dict: replace the existing binding in
place, else append a new one. -/
def dictSet {α : Type} : List (String × α) → String → α → List (String × α)
  | [], key, v => [(key, v)]
  | (k, w) :: rest, key, v =>
      if k = key then (key, v) :: rest else (k, w) :: dictSet rest key v

/-- Removal del d[k] / d.pop(k, None): drop every binding for the key (a
Python dict holds at most one). -/
def dictRemove {α : Type} (d : List (String × α)) (key : String) :
    List (String × α) :=
  d.filter (fun kv => decide (kv.1 ≠ key))

/-- Number of bindings a dict holds for a key. -/
def dictCount {α : Type} (d : List (String × α)) (key : String) : Nat :=
  (d.filter (fun kv => decide (kv.1 = key))).length

/-- The MCPServerConfig dataclass.  The dataclass defaults (None for args,
env, tools) are normalised to empty collections by post-init, so the
fields are total here. -/
structure MCPServerConfig where
  name : String
  command : String
  args : List String
  env : List (String × String)
  node_modules_path : Option String
  tools : List String
deriving DecidableEq

/-- The mutable state of an MCPClient instance.  A process handle is
abstracted to a numeric pid; an id counter itertools.count(n) is
represented by the next value n it will yield; a lock is a unit token. -/
structure ClientState where
  servers : List (String × MCPServerConfig)
  active_processes : List (String × Nat)
  response_queues : List (String × List Json)
  id_counters : List (String × Nat)
  counter_locks : List (String × Unit)

/-- One entry of the servers mapping of a JSON config file, with each field
optional exactly as server_config.get supplies defaults. -/
structure JsonServerEntry where
  command : Option String
  args : Option (List String)
  env : Option (List (String × String))
  node_modules_path : Option String
  tools : Option (List String)
deriving DecidableEq

/-- MCPServerConfig built from one JSON config entry
(load_servers_from_json, lines 143-150): each field defaults when the key
is absent. -/
def configFromJsonEntry (name : String) (e : JsonServerEntry) :
    MCPServerConfig :=
  { name := name
    command := e.command.getD ""
    args := e.args.getD []
    env := e.env.getD []
    node_modules_path := e.node_modules_path
    tools := e.tools.getD [] }

/-- load_servers_from_json applied to a successfully parsed file: fold the
entries of the servers mapping into the client's servers dict, each one a
whole-entry assignment. -/
def load_servers_from_json (servers : List (String × MCPServerConfig))
    (entries : List (String × JsonServerEntry)) :
    List (String × MCPServerConfig) :=
  entries.foldl (fun d ne => dictSet d ne.1 (configFromJsonEntry ne.1 ne.2)) servers

/-- Environment-variable configuration for one server name, after the JSON
decoding of ARGS and ENV (a missing or invalid variable yields the empty
default, so only the decoded value matters). -/
structure EnvServerSpec where
  command : Option String
  args : List String
  env : List (String × String)
  node_modules_path : Option String
deriving DecidableEq

/-- MCPServerConfig built from environment variables
(_load_server_config_from_env, lines 109-115): tools is never set here, so
post-init gives it the empty list. -/
def configFromEnvSpec (name : String) (e : EnvServerSpec) : MCPServerConfig :=
  { name := name
    command := e.command.getD ""
    args := e.args
    env := e.env
    node_modules_path := e.node_modules_path
    tools := [] }

/-- _load_server_config_from_env: a missing or empty command skips the
server with a warning; otherwise the built config is assigned to the
servers dict. -/
def load_server_config_from_env (servers : List (String × MCPServerConfig))
    (name : String) (e : EnvServerSpec) : List (String × MCPServerConfig) :=
  match e.command with
  | none => servers
  | some c =>
      if c = "" then servers
      else dictSet servers name (configFromEnvSpec name e)

/-- load_servers_from_env over the parsed MCP_SERVERS name list paired with
each name's variables. -/
def load_servers_from_env (servers : List (String × MCPServerConfig))
    (specs : List (String × EnvServerSpec)) :
    List (String × MCPServerConfig) :=
  specs.foldl (fun d ne => load_server_config_from_env d ne.1 ne.2) servers

/-- start_server (lines 160-217).  The subprocess.Popen call is abstracted
by its outcome spawn: some pid when the spawn succeeds, none when it
raises (the except branch).  Returns the boolean result and the new
state. -/
def start_server (st : ClientState) (name : String) (spawn : Option Nat) :
    Bool × ClientState :=
  if (dictGet st.servers name).isNone then
    (false, st)
  else if (dictGet st.active_processes name).isSome then
    (true, st)
  else
    match spawn with
    | none => (false, st)
    | some pid =>
        (true,
          { st with
            active_processes := dictSet st.active_processes name pid
            response_queues := dictSet st.response_queues name []
            id_counters := dictSet st.id_counters name 1
            counter_locks := dictSet st.counter_locks name () })

/-- stop_server (lines 255-286).  Termination of the process is abstracted
by terminateOk: true when terminate/wait (or kill) completes, false when
an exception is raised, in which case nothing is removed (the del and pop
lines are never reached). -/
def stop_server (st : ClientState) (name : String) (terminateOk : Bool) :
    Bool × ClientState :=
  if (dictGet st.active_processes name).isNone then
    (true, st)
  else if terminateOk then
    (true,
      { st with
        active_processes := dictRemove st.active_processes name
        response_queues := dictRemove st.response_queues name
        id_counters := dictRemove st.id_counters name })
  else
    (false, st)

/-- Which output stream of the child process a line arrived on. -/
inductive StreamType where
  | stdout : StreamType
  | stderr : StreamType
deriving DecidableEq

/-- _process_server_output (lines 314-332).  parsed is the outcome of
json.loads on the stripped line: none when json.loads raises
JSONDecodeError.  A stderr line is only logged.  A stdout line that parsed
to a dict holding an id key and a result or error key is put on the
server's response queue when that queue exists; every other line is only
logged.  Returns the updated response_queues dict. -/
def process_server_output (queues : List (String × List Json))
    (server : String) (parsed : Option Json) (stype : StreamType) :
    List (String × List Json) :=
  match stype with
  | StreamType.stderr => queues
  | StreamType.stdout =>
      match parsed with
      | none => queues
      | some message =>
          if message.isDict && message.hasKey "id" &&
              (message.hasKey "result" || message.hasKey "error") then
            match dictGet queues server with
            | some q => dictSet queues server (q ++ [message])
            | none => queues
          else queues

/-- The JSON-RPC envelope rpc_request builds (lines 372-377). -/
def build_rpc_message (id : Nat) (method : String) (params : Json) : Json :=
  Json.obj [("jsonrpc", Json.str "2.0"), ("id", Json.num (id : Int)),
            ("method", Json.str method), ("params", params)]

/-- Observable effects of one rpc_request call: whether a write to the
process's input stream was attempted, whether the call blocked on the
response channel, and the envelope built when an id was allocated. -/
structure RpcEffects where
  wrote : Bool
  dequeued : Bool
  message : Option Json

/-- rpc_request (lines 357-387).  The child process is abstracted by
serverLines, giving the parsed stdout lines the server emits in reaction
to the written request before the timeout expires (the reader thread
classifies each through process_server_output); writeOk abstracts whether
the stdin write raises.  Dequeuing is FIFO from the head of the server's
queue; an empty queue at dequeue time is the timeout. -/
def rpc_request (st : ClientState) (name : String) (method : String)
    (params : Json) (writeOk : Bool)
    (serverLines : Json → List (Option Json)) :
    Option Json × ClientState × RpcEffects :=
  if (dictGet st.active_processes name).isNone then
    (none, st, ⟨false, false, none⟩)
  else
    match dictGet st.response_queues name, dictGet st.id_counters name,
        dictGet st.counter_locks name with
    | some _, some ctr, some _ =>
        let st1 := { st with id_counters := dictSet st.id_counters name (ctr + 1) }
        let message := build_rpc_message ctr method params
        if writeOk then
          let queues := (serverLines message).foldl
            (fun qs line => process_server_output qs name line StreamType.stdout)
            st1.response_queues
          match dictGet queues name with
          | some (r :: rest) =>
              (some r, { st1 with response_queues := dictSet queues name rest },
                ⟨true, true, some message⟩)
          | some [] =>
              (none, { st1 with response_queues := queues }, ⟨true, true, some message⟩)
          | none =>
              (none, { st1 with response_queues := queues }, ⟨true, true, some message⟩)
        else
          (none, st1, ⟨true, false, some message⟩)
    | _, _, _ => (none, st, ⟨false, false, none⟩)

/-- One rpc_request call of a sequence: its method, params, and the
abstracted write outcome and server reaction. -/
structure RpcCallSpec where
  method : String
  params : Json
  writeOk : Bool
  serverLines : Json → List (Option Json)

/-- The id field of the envelope an rpc_request call built, when it
allocated one. -/
def allocatedIds (eff : RpcEffects) : List Int :=
  match eff.message with
  | some m =>
      match m.get? "id" with
      | some (Json.num i) => [i]
      | _ => []
  | none => []

/-- A sequence of rpc_request calls against one server, threading the
client state, collecting the ids of the envelopes built. -/
def rpc_call_seq (name : String) :
    List RpcCallSpec → ClientState → List Int × ClientState
  | [], st => ([], st)
  | c :: cs, st =>
      let r := rpc_request st name c.method c.params c.writeOk c.serverLines
      let rest := rpc_call_seq name cs r.2.1
      (allocatedIds r.2.2 ++ rest.1, rest.2)

/-- The parsed stdout line an echo server emits on receiving a request: a
same-id response whose result field is the received request. -/
def echo_lines (req : Json) : List (Option Json) :=
  [some (Json.obj [("jsonrpc", Json.str "2.0"),
                   ("id", (req.get? "id").getD Json.null),
                   ("result", req)])]

/-- The name-collection loop of discover_tools (lines 236-243): a dict
entry contributes its name field, or its tool field when name is absent or
falsy, and only when that value is truthy; a string entry contributes
itself; anything else is skipped. -/
def extract_tool_names : List Json → List Json
  | [] => []
  | t :: ts =>
      if t.isDict then
        let name := pyOr ((t.get? "name").getD Json.null)
          ((t.get? "tool").getD Json.null)
        if name.truthy then name :: extract_tool_names ts
        else extract_tool_names ts
      else if t.isStr then t :: extract_tool_names ts
      else extract_tool_names ts

/-- The protocol branch of discover_tools (lines 230-246), taking the
rpc_request outcome as rpcResponse.  The second component records that an
rpc_request was performed. -/
def discover_tools_via_rpc (rpcResponse : Option Json) :
    Option (List Json) × Bool :=
  let response := rpcResponse.getD Json.null
  if response.truthy && response.isDict then
    let result := pyOr ((response.get? "result").getD Json.null) (Json.obj [])
    let tools := if result.isDict then (result.get? "tools").getD Json.null
      else Json.null
    match tools with
    | Json.arr ts =>
        let names := extract_tool_names ts
        if names.isEmpty then (none, true) else (some names, true)
    | _ => (none, true)
  else (none, true)

/-- discover_tools (lines 219-246).  cfg is self.servers.get(name); when it
exists and declares a truthy (non-empty) tools list, that list is returned
with no rpc_request performed (config-declared names are embedded as JSON
strings); otherwise the protocol branch runs on the rpc outcome.  The
boolean records whether rpc_request was invoked. -/
def discover_tools (cfg : Option MCPServerConfig)
    (rpcResponse : Option Json) : Option (List Json) × Bool :=
  match cfg with
  | some config =>
      if !config.tools.isEmpty then (some (config.tools.map Json.str), false)
      else discover_tools_via_rpc rpcResponse
  | none => discover_tools_via_rpc rpcResponse

/-- Modelled from the spec for comparison with the code: a well-formed
tools/list outcome is a present response whose result field holds a tools
field that is a list; yields that list. -/
def specResultToolsList (rpcResponse : Option Json) : Option (List Json) :=
  match rpcResponse with
  | some r =>
      match r.get? "result" with
      | some res =>
          match res.get? "tools" with
          | some (Json.arr ts) => some ts
          | _ => none
      | none => none
  | none => none

/-- call_tool response handling (lines 408-414), taking the rpc_request
outcome: nothing stays nothing; a response holding an error key is wrapped
as an object whose single error field is that value; otherwise the
response's result field, defaulting to the whole response. -/
def call_tool (rpcResponse : Option Json) : Option Json :=
  match rpcResponse with
  | none => none
  | some response =>
      if response.hasKey "error" then
        some (Json.obj [("error", (response.get? "error").getD Json.null)])
      else
        some ((response.get? "result").getD response)

/-- call_tool end to end (lines 389-414): the tools/call rpc_request with
the built params, then the response handling. -/
def call_tool_run (st : ClientState) (name : String) (toolName : String)
    (arguments : Json) (writeOk : Bool)
    (serverLines : Json → List (Option Json)) : Option Json :=
  call_tool (rpc_request st name "tools/call"
    (Json.obj [("name", Json.str toolName), ("arguments", arguments)])
    writeOk serverLines).1

theorem dictGet_dictSet_self {α : Type} (d : List (String × α)) (k : String)
    (v : α) : dictGet (dictSet d k v) k = some v := by
  induction d with
  | nil => simp [dictSet, dictGet]
  | cons hd tl ih =>
      obtain ⟨k1, w⟩ := hd
      by_cases h : k1 = k
      · simp [dictSet, dictGet, h]
      · simp [dictSet, dictGet, h, ih]

theorem dictGet_dictSet_ne {α : Type} (d : List (String × α)) (k k2 : String)
    (v : α) (hne : k2 ≠ k) : dictGet (dictSet d k v) k2 = dictGet d k2 := by
  have hne1 : ¬ (k = k2) := fun h => hne h.symm
  induction d with
  | nil => simp [dictSet, dictGet, hne1]
  | cons hd tl ih =>
      obtain ⟨k1, w⟩ := hd
      by_cases h : k1 = k
      · subst h
        simp [dictSet, dictGet, hne1]
      · simp [dictSet, dictGet, h, ih]

theorem dictGet_dictRemove_self {α : Type} (d : List (String × α))
    (k : String) : dictGet (dictRemove d k) k = none := by
  induction d with
  | nil => simp [dictRemove, dictGet]
  | cons hd tl ih =>
      obtain ⟨k1, w⟩ := hd
      by_cases h : k1 = k
      · simpa [dictRemove, List.filter_cons, h] using ih
      · simpa [dictRemove, List.filter_cons, h, dictGet] using ih

theorem dictGet_dictRemove_ne {α : Type} (d : List (String × α))
    (k k2 : String) (hne : k2 ≠ k) :
    dictGet (dictRemove d k) k2 = dictGet d k2 := by
  have hne1 : ¬ (k = k2) := fun h => hne h.symm
  induction d with
  | nil => simp [dictRemove, dictGet]
  | cons hd tl ih =>
      obtain ⟨k1, w⟩ := hd
      by_cases h : k1 = k
      · subst h
        simpa [dictRemove, List.filter_cons, dictGet, hne1] using ih
      · by_cases h2 : k1 = k2
        · simp [dictRemove, List.filter_cons, h, h2, dictGet, hne]
        · simpa [dictRemove, List.filter_cons, h, h2, dictGet] using ih

theorem dictCount_eq_zero {α : Type} (d : List (String × α)) (k : String)
    (h : dictGet d k = none) : dictCount d k = 0 := by
  induction d with
  | nil => simp [dictCount]
  | cons hd tl ih =>
      obtain ⟨k1, w⟩ := hd
      by_cases hk : k1 = k
      · simp [dictGet, hk] at h
      · simp only [dictGet, if_neg hk] at h
        have h0 := ih h
        unfold dictCount at h0 ⊢
        rw [List.filter_cons]
        simpa [hk] using h0

theorem dictCount_dictSet_absent {α : Type} (d : List (String × α))
    (k : String) (v : α) (h : dictGet d k = none) :
    dictCount (dictSet d k v) k = 1 := by
  induction d with
  | nil => simp [dictSet, dictCount, List.filter_cons]
  | cons hd tl ih =>
      obtain ⟨k1, w⟩ := hd
      by_cases hk : k1 = k
      · simp [dictGet, hk] at h
      · simp only [dictGet, if_neg hk] at h
        have h0 := ih h
        unfold dictCount at h0 ⊢
        simp only [dictSet, if_neg hk]
        rw [List.filter_cons]
        simpa [hk] using h0

theorem load_json_not_mem (d : List (String × MCPServerConfig))
    (entries : List (String × JsonServerEntry)) (n : String)
    (hn : n ∉ entries.map Prod.fst) :
    dictGet (load_servers_from_json d entries) n = dictGet d n := by
  induction entries generalizing d with
  | nil => rfl
  | cons hd rest ih =>
      obtain ⟨m, ee⟩ := hd
      have h1 : n ≠ m := fun h => hn (by simp [h])
      have h2 : n ∉ rest.map Prod.fst := fun h => hn (by simp [h])
      simp only [load_servers_from_json, List.foldl_cons]
      rw [show (rest.foldl
          (fun d ne => dictSet d ne.1 (configFromJsonEntry ne.1 ne.2))
          (dictSet d m (configFromJsonEntry m ee)))
        = load_servers_from_json (dictSet d m (configFromJsonEntry m ee)) rest
        from rfl]
      rw [ih _ h2]
      exact dictGet_dictSet_ne _ _ _ _ h1

theorem load_json_mem (d : List (String × MCPServerConfig))
    (entries : List (String × JsonServerEntry)) (n : String)
    (e : JsonServerEntry) (hnd : (entries.map Prod.fst).Nodup)
    (hmem : (n, e) ∈ entries) :
    dictGet (load_servers_from_json d entries) n =
      some (configFromJsonEntry n e) := by
  induction entries generalizing d with
  | nil => cases hmem
  | cons hd rest ih =>
      obtain ⟨m, ee⟩ := hd
      have hnd1 := hnd
      simp only [List.map_cons, List.nodup_cons] at hnd1
      rcases List.mem_cons.mp hmem with heq | hmem2
      · have hpair := heq
        simp only [Prod.mk.injEq] at hpair
        obtain ⟨rfl, rfl⟩ := hpair
        simp only [load_servers_from_json, List.foldl_cons]
        rw [show (rest.foldl
            (fun d ne => dictSet d ne.1 (configFromJsonEntry ne.1 ne.2))
            (dictSet d n (configFromJsonEntry n e)))
          = load_servers_from_json (dictSet d n (configFromJsonEntry n e)) rest
          from rfl]
        rw [load_json_not_mem _ _ _ hnd1.1]
        exact dictGet_dictSet_self _ _ _
      · simp only [load_servers_from_json, List.foldl_cons]
        exact ih _ hnd1.2 hmem2

theorem load_env_not_mem (d : List (String × MCPServerConfig))
    (specs : List (String × EnvServerSpec)) (n : String)
    (hn : n ∉ specs.map Prod.fst) :
    dictGet (load_servers_from_env d specs) n = dictGet d n := by
  induction specs generalizing d with
  | nil => rfl
  | cons hd rest ih =>
      obtain ⟨m, s⟩ := hd
      have h1 : n ≠ m := fun h => hn (by simp [h])
      have h2 : n ∉ rest.map Prod.fst := fun h => hn (by simp [h])
      simp only [load_servers_from_env, List.foldl_cons]
      rw [show (rest.foldl
          (fun d ne => load_server_config_from_env d ne.1 ne.2)
          (load_server_config_from_env d m s))
        = load_servers_from_env (load_server_config_from_env d m s) rest
        from rfl]
      rw [ih _ h2]
      unfold load_server_config_from_env
      cases hc : s.command with
      | none => rfl
      | some c =>
          by_cases hce : c = ""
          · simp [hce]
          · simp [hce, dictGet_dictSet_ne _ _ _ _ h1]

theorem load_env_mem (d : List (String × MCPServerConfig))
    (specs : List (String × EnvServerSpec)) (n : String) (s : EnvServerSpec)
    (c : String) (hnd : (specs.map Prod.fst).Nodup)
    (hmem : (n, s) ∈ specs) (hc : s.command = some c) (hce : c ≠ "") :
    dictGet (load_servers_from_env d specs) n =
      some (configFromEnvSpec n s) := by
  induction specs generalizing d with
  | nil => cases hmem
  | cons hd rest ih =>
      obtain ⟨m, s1⟩ := hd
      have hnd1 := hnd
      simp only [List.map_cons, List.nodup_cons] at hnd1
      rcases List.mem_cons.mp hmem with heq | hmem2
      · have hpair := heq
        simp only [Prod.mk.injEq] at hpair
        obtain ⟨rfl, rfl⟩ := hpair
        simp only [load_servers_from_env, List.foldl_cons]
        rw [show (rest.foldl
            (fun d ne => load_server_config_from_env d ne.1 ne.2)
            (load_server_config_from_env d n s))
          = load_servers_from_env (load_server_config_from_env d n s) rest
          from rfl]
        rw [load_env_not_mem _ _ _ hnd1.1]
        unfold load_server_config_from_env
        rw [hc]
        simp [hce, dictGet_dictSet_self]
      · simp only [load_servers_from_env, List.foldl_cons]
        exact ih _ hnd1.2 hmem2

theorem process_server_output_preserves (qs : List (String × List Json))
    (server k : String) (p : Option Json) (t : StreamType)
    (h : (dictGet qs k).isSome) :
    (dictGet (process_server_output qs server p t) k).isSome := by
  unfold process_server_output
  cases t with
  | stderr => exact h
  | stdout =>
      cases p with
      | none => exact h
      | some message =>
          by_cases hcond : (message.isDict && message.hasKey "id" &&
              (message.hasKey "result" || message.hasKey "error")) = true
          · simp only [hcond, if_true]
            cases hget : dictGet qs server with
            | none => exact h
            | some q =>
                by_cases hk : k = server
                · subst hk
                  simp [dictGet_dictSet_self]
                · simpa [dictGet_dictSet_ne _ _ _ _ hk] using h
          · simp only [Bool.not_eq_true] at hcond
            simp only [hcond, Bool.false_eq_true, if_false]
            exact h

theorem foldl_pso_preserves (lines : List (Option Json))
    (qs : List (String × List Json)) (server k : String)
    (h : (dictGet qs k).isSome) :
    (dictGet (lines.foldl
      (fun a l => process_server_output a server l StreamType.stdout) qs)
      k).isSome := by
  induction lines generalizing qs with
  | nil => exact h
  | cons l rest ih =>
      exact ih _ (process_server_output_preserves qs server k l
        StreamType.stdout h)

theorem rpc_request_step (st : ClientState) (name method : String)
    (params : Json) (writeOk : Bool)
    (serverLines : Json → List (Option Json)) (ctr : Nat)
    (hact : (dictGet st.active_processes name).isSome)
    (hq : (dictGet st.response_queues name).isSome)
    (hc : dictGet st.id_counters name = some ctr)
    (hl : (dictGet st.counter_locks name).isSome) :
    allocatedIds (rpc_request st name method params writeOk serverLines).2.2
        = [(ctr : Int)] ∧
    (rpc_request st name method params writeOk serverLines).2.1.active_processes
        = st.active_processes ∧
    (rpc_request st name method params writeOk serverLines).2.1.counter_locks
        = st.counter_locks ∧
    (rpc_request st name method params writeOk serverLines).2.1.servers
        = st.servers ∧
    dictGet (rpc_request st name method params writeOk serverLines).2.1.id_counters
        name = some (ctr + 1) ∧
    (dictGet (rpc_request st name method params writeOk serverLines).2.1.response_queues
        name).isSome := by
  obtain ⟨q, hq'⟩ := Option.isSome_iff_exists.mp hq
  obtain ⟨lk, hl'⟩ := Option.isSome_iff_exists.mp hl
  have hidmsg : allocatedIds ⟨true, true, some (build_rpc_message ctr method params)⟩
      = [(ctr : Int)] := by
    simp [allocatedIds, build_rpc_message, Json.get?, kvGet]
  have hactn : (dictGet st.active_processes name).isNone = false := by
    simp [Option.isNone_iff_eq_none]
    exact Option.isSome_iff_exists.mp hact |>.elim fun p hp => by simp [hp]
  unfold rpc_request
  rw [hactn, hq', hc, hl']
  cases writeOk with
  | false =>
      refine ⟨?_, rfl, rfl, rfl, ?_, ?_⟩
      · exact hidmsg
      · simp [dictGet_dictSet_self]
      · simpa using hq
  | true =>
      have hqs : (dictGet ((serverLines (build_rpc_message ctr method params)).foldl
          (fun a l => process_server_output a name l StreamType.stdout)
          st.response_queues) name).isSome := by
        exact foldl_pso_preserves _ _ _ _ hq
      obtain ⟨q1, hq1⟩ := Option.isSome_iff_exists.mp hqs
      cases q1 with
      | nil =>
          simp only [hq1]
          refine ⟨hidmsg, rfl, rfl, rfl, ?_, ?_⟩
          · simp [dictGet_dictSet_self]
          · simp [hq1]
      | cons r rest =>
          simp only [hq1]
          refine ⟨hidmsg, rfl, rfl, rfl, ?_, ?_⟩
          · simp [dictGet_dictSet_self]
          · simp [dictGet_dictSet_self]

theorem rpc_call_seq_ids (name : String) (cs : List RpcCallSpec) :
    ∀ (st : ClientState) (c : Nat),
    (dictGet st.active_processes name).isSome →
    (dictGet st.response_queues name).isSome →
    dictGet st.id_counters name = some c →
    (dictGet st.counter_locks name).isSome →
    (rpc_call_seq name cs st).1 =
      (List.range' c cs.length).map Int.ofNat := by
  induction cs with
  | nil => intro st c _ _ _ _; simp [rpc_call_seq]
  | cons spec rest ih =>
      intro st c hact hq hc hl
      obtain ⟨hid, ha, hlk, _, hcn, hqn⟩ := rpc_request_step st name
        spec.method spec.params spec.writeOk spec.serverLines c hact hq hc hl
      have hnext := ih (rpc_request st name spec.method spec.params
          spec.writeOk spec.serverLines).2.1 (c + 1)
        (ha ▸ hact) hqn hcn (hlk ▸ hl)
      simp only [rpc_call_seq, List.length_cons]
      rw [hid, hnext, List.range'_succ]
      simp

theorem Json.isDict_of_hasKey (j : Json) (k : String)
    (h : j.hasKey k = true) : j.isDict = true := by
  cases j <;> simp [Json.hasKey, Json.get?, Json.isDict] at h ⊢

/-- C9: rpc_request to a server name that is not active returns nothing
immediately: the client state is unchanged (in particular no request id is
allocated from the counter), no envelope is built, no write to any
process's input stream is attempted, and the response channel is never
dequeued. -/
theorem C9_rpc_request_inactive (st : ClientState) (name method : String)
    (params : Json) (writeOk : Bool)
    (serverLines : Json → List (Option Json))
    (hact : dictGet st.active_processes name = none) :
    rpc_request st name method params writeOk serverLines =
      (none, st, ⟨false, false, none⟩) := by
  unfold rpc_request
  simp [hact]

theorem C9_rpc_request_inactive_witness :
    dictGet (ClientState.mk [] [] [] [] []).active_processes "srv" = none ∧
    rpc_request (ClientState.mk [] [] [] [] []) "srv" "tools/list"
        (Json.obj []) true (fun _ => []) =
      (none, ClientState.mk [] [] [] [] [], ⟨false, false, none⟩) :=
  ⟨rfl, C9_rpc_request_inactive (ClientState.mk [] [] [] [] []) "srv"
    "tools/list" (Json.obj []) true (fun _ => []) rfl⟩

/-- C5: for a configured server name that is not yet active and whose spawn
succeeds, start_server returns true; a second start_server without an
intervening stop returns true with the state unchanged whatever the
would-be spawn outcome (no side effects), and exactly one live process is
registered for the name; start_server on an unconfigured name returns
false and leaves the state unchanged. -/
theorem C5_start_twice (st : ClientState) (name : String) (pid : Nat)
    (hconf : (dictGet st.servers name).isSome)
    (hact : dictGet st.active_processes name = none) :
    (start_server st name (some pid)).1 = true ∧
    (∀ spawn2 : Option Nat,
      start_server (start_server st name (some pid)).2 name spawn2 =
        (true, (start_server st name (some pid)).2)) ∧
    dictCount (start_server st name (some pid)).2.active_processes name
      = 1 ∧
    (∀ (st2 : ClientState) (spawn : Option Nat),
      dictGet st2.servers name = none →
      start_server st2 name spawn = (false, st2)) := by
  obtain ⟨cfg, hcfg⟩ := Option.isSome_iff_exists.mp hconf
  have h1 : (start_server st name (some pid)).2 =
      { st with
        active_processes := dictSet st.active_processes name pid
        response_queues := dictSet st.response_queues name []
        id_counters := dictSet st.id_counters name 1
        counter_locks := dictSet st.counter_locks name () } := by
    unfold start_server
    simp [hcfg, hact]
  refine ⟨?_, ?_, ?_, ?_⟩
  · unfold start_server
    simp [hcfg, hact]
  · intro spawn2
    rw [h1]
    unfold start_server
    simp [hcfg, dictGet_dictSet_self]
  · rw [h1]
    exact dictCount_dictSet_absent st.active_processes name pid hact
  · intro st2 spawn h
    unfold start_server
    simp [h]

theorem C5_start_twice_witness :
    (dictGet (ClientState.mk
        [("srv", MCPServerConfig.mk "srv" "cmd" [] [] none [])]
        [] [] [] []).servers "srv").isSome = true ∧
    dictGet (ClientState.mk
        [("srv", MCPServerConfig.mk "srv" "cmd" [] [] none [])]
        [] [] [] []).active_processes "srv" = none ∧
    dictCount (start_server (ClientState.mk
        [("srv", MCPServerConfig.mk "srv" "cmd" [] [] none [])]
        [] [] [] []) "srv" (some 7)).2.active_processes "srv" = 1 :=
  ⟨rfl, rfl,
    (C5_start_twice (ClientState.mk
        [("srv", MCPServerConfig.mk "srv" "cmd" [] [] none [])]
        [] [] [] []) "srv" 7 rfl rfl).2.2.1⟩

/-- C10: a successful stop_server of an active server returns true and
removes the process handle, the response queue and the request-id counter
for that name, while the counter-lock dict (and the servers config dict)
are left exactly as they were: the per-server lock is the only per-server
resource that survives the stop. -/
theorem C10_stop_frame (st : ClientState) (name : String)
    (hact : (dictGet st.active_processes name).isSome) :
    (stop_server st name true).1 = true ∧
    dictGet (stop_server st name true).2.active_processes name = none ∧
    dictGet (stop_server st name true).2.response_queues name = none ∧
    dictGet (stop_server st name true).2.id_counters name = none ∧
    (stop_server st name true).2.counter_locks = st.counter_locks ∧
    (stop_server st name true).2.servers = st.servers := by
  obtain ⟨p, hp⟩ := Option.isSome_iff_exists.mp hact
  unfold stop_server
  rw [hp]
  simp [dictGet_dictRemove_self]

theorem C10_stop_frame_witness :
    (dictGet (ClientState.mk [] [("srv", 7)] [("srv", [])] [("srv", 3)]
        [("srv", ())]).active_processes "srv").isSome = true ∧
    dictGet (stop_server (ClientState.mk [] [("srv", 7)] [("srv", [])]
        [("srv", 3)] [("srv", ())]) "srv" true).2.id_counters "srv"
      = none ∧
    (stop_server (ClientState.mk [] [("srv", 7)] [("srv", [])] [("srv", 3)]
        [("srv", ())]) "srv" true).2.counter_locks = [("srv", ())] :=
  ⟨rfl,
    (C10_stop_frame (ClientState.mk [] [("srv", 7)] [("srv", [])]
      [("srv", 3)] [("srv", ())]) "srv" rfl).2.2.2.1,
    (C10_stop_frame (ClientState.mk [] [("srv", 7)] [("srv", [])]
      [("srv", 3)] [("srv", ())]) "srv" rfl).2.2.2.2.1⟩

/-- C2: whole-entry replacement across configuration sources.  d is the
servers dict resolved from any earlier sources (home file, working
directory file, explicit file); when a later JSON source whose entry names
are distinct also defines a name, the resolved config for that name is
exactly the config built from the later source's entry (which mentions no
field of d, so nothing from an earlier source survives); likewise when
the later source is the environment variables and the name's command
variable is present and non-empty. -/
theorem C2_whole_entry_replacement
    (d : List (String × MCPServerConfig)) (n : String)
    (src2 : List (String × JsonServerEntry))
    (esrc : List (String × EnvServerSpec)) :
    ((src2.map Prod.fst).Nodup → ∀ e, (n, e) ∈ src2 →
      dictGet (load_servers_from_json d src2) n =
        some (configFromJsonEntry n e)) ∧
    ((esrc.map Prod.fst).Nodup → ∀ s c, (n, s) ∈ esrc →
      s.command = some c → c ≠ "" →
      dictGet (load_servers_from_env d esrc) n =
        some (configFromEnvSpec n s)) :=
  ⟨fun hnd e hmem => load_json_mem d src2 n e hnd hmem,
   fun hnd s c hmem hc hce => load_env_mem d esrc n s c hnd hmem hc hce⟩

theorem C2_whole_entry_replacement_witness :
    ([("S", JsonServerEntry.mk (some "printf") none none none none)].map
        Prod.fst).Nodup ∧
    dictGet (load_servers_from_json
        [("S", MCPServerConfig.mk "S" "echo" ["ping"] [] none [])]
        [("S", JsonServerEntry.mk (some "printf") none none none none)])
        "S" =
      some (configFromJsonEntry "S"
        (JsonServerEntry.mk (some "printf") none none none none)) :=
  ⟨by decide,
    (C2_whole_entry_replacement
      [("S", MCPServerConfig.mk "S" "echo" ["ping"] [] none [])] "S"
      [("S", JsonServerEntry.mk (some "printf") none none none none)]
      []).1 (by decide)
      (JsonServerEntry.mk (some "printf") none none none none)
      (List.mem_singleton.mpr rfl)⟩

/-- C7: when the ServerConfig declares a non-empty tools list,
discover_tools returns that list verbatim (embedded as JSON strings) with
the rpc flag false — no tools/list request is issued and no response
channel is consulted — and the outcome is the same whatever any rpc
interaction would have produced. -/
theorem C7_config_declared_tools (cfg : MCPServerConfig)
    (h : cfg.tools ≠ []) (rpcResponse : Option Json) :
    discover_tools (some cfg) rpcResponse =
      (some (cfg.tools.map Json.str), false) := by
  unfold discover_tools
  have he : cfg.tools.isEmpty = false := by
    cases ht : cfg.tools with
    | nil => exact absurd ht h
    | cons a l => rfl
  simp [he]

theorem C7_config_declared_tools_witness :
    (MCPServerConfig.mk "srv" "cmd" [] [] none ["alpha", "beta"]).tools
        ≠ [] ∧
    discover_tools
        (some (MCPServerConfig.mk "srv" "cmd" [] [] none ["alpha", "beta"]))
        (some Json.null) =
      (some [Json.str "alpha", Json.str "beta"], false) :=
  ⟨by decide,
    C7_config_declared_tools
      (MCPServerConfig.mk "srv" "cmd" [] [] none ["alpha", "beta"])
      (by decide) (some Json.null)⟩

/-- C3: classification of inbound lines.  A stdout line whose JSON parse is
a value holding an id key and a result or error key is appended to the
server's response queue when that queue exists; a stdout line parsing to a
value without an id key, or with neither result nor error key, leaves the
queues unchanged (discarded, never delivered); a stdout line that fails to
parse leaves the queues unchanged; a stderr line never changes the queues
whatever its content. -/
theorem C3_line_classification (queues : List (String × List Json))
    (server : String) (parsed : Option Json) :
    (∀ msg q, parsed = some msg → msg.hasKey "id" = true →
      (msg.hasKey "result" = true ∨ msg.hasKey "error" = true) →
      dictGet queues server = some q →
      process_server_output queues server parsed StreamType.stdout =
        dictSet queues server (q ++ [msg])) ∧
    (∀ msg, parsed = some msg →
      (msg.hasKey "id" = false ∨
        (msg.hasKey "result" = false ∧ msg.hasKey "error" = false)) →
      process_server_output queues server parsed StreamType.stdout =
        queues) ∧
    (parsed = none →
      process_server_output queues server parsed StreamType.stdout =
        queues) ∧
    process_server_output queues server parsed StreamType.stderr =
      queues := by
  refine ⟨?_, ?_, ?_, ?_⟩
  · intro msg q hp hid hre hq
    subst hp
    have hd := Json.isDict_of_hasKey msg "id" hid
    unfold process_server_output
    rcases hre with hr | he
    · simp [hd, hid, hr, hq]
    · simp [hd, hid, he, hq]
  · intro msg hp hbad
    subst hp
    unfold process_server_output
    rcases hbad with hid | ⟨hr, he⟩
    · simp [hid]
    · simp [hr, he]
  · intro hp
    subst hp
    rfl
  · rfl

theorem C3_line_classification_witness :
    (Json.obj [("jsonrpc", Json.str "2.0"), ("id", Json.num 4),
        ("result", Json.num 1)]).hasKey "id" = true ∧
    dictGet [("srv", ([] : List Json))] "srv" = some [] ∧
    process_server_output [("srv", [])] "srv"
        (some (Json.obj [("jsonrpc", Json.str "2.0"), ("id", Json.num 4),
          ("result", Json.num 1)])) StreamType.stdout =
      dictSet [("srv", [])] "srv"
        ([] ++ [Json.obj [("jsonrpc", Json.str "2.0"), ("id", Json.num 4),
          ("result", Json.num 1)]]) ∧
    (Json.obj [("method", Json.str "note")]).hasKey "id" = false ∧
    process_server_output [("srv", [])] "srv"
        (some (Json.obj [("method", Json.str "note")]))
        StreamType.stdout = [("srv", [])] :=
  ⟨rfl, rfl,
    (C3_line_classification [("srv", [])] "srv"
      (some (Json.obj [("jsonrpc", Json.str "2.0"), ("id", Json.num 4),
        ("result", Json.num 1)]))).1
      (Json.obj [("jsonrpc", Json.str "2.0"), ("id", Json.num 4),
        ("result", Json.num 1)]) [] rfl rfl (Or.inl rfl) rfl,
    rfl,
    (C3_line_classification [("srv", [])] "srv"
      (some (Json.obj [("method", Json.str "note")]))).2.1
      (Json.obj [("method", Json.str "note")]) rfl (Or.inl rfl)⟩

/-- C8: call_tool returns nothing when the server is not active and when
the tools/call rpc_request produced no response within the timeout; when a
response arrived that holds an error key, it returns a structured object
wrapping that error value, which is never nothing — so a caller can
distinguish no response from a server-reported error. -/
theorem C8_call_tool_outcomes (st : ClientState) (name toolName : String)
    (arguments : Json) (writeOk : Bool)
    (serverLines : Json → List (Option Json)) :
    (dictGet st.active_processes name = none →
      call_tool_run st name toolName arguments writeOk serverLines =
        none) ∧
    ((rpc_request st name "tools/call"
        (Json.obj [("name", Json.str toolName), ("arguments", arguments)])
        writeOk serverLines).1 = none →
      call_tool_run st name toolName arguments writeOk serverLines =
        none) ∧
    (∀ response e,
      (rpc_request st name "tools/call"
        (Json.obj [("name", Json.str toolName), ("arguments", arguments)])
        writeOk serverLines).1 = some response →
      response.get? "error" = some e →
      call_tool_run st name toolName arguments writeOk serverLines =
        some (Json.obj [("error", e)]) ∧
      call_tool_run st name toolName arguments writeOk serverLines ≠
        none) := by
  refine ⟨?_, ?_, ?_⟩
  · intro h
    unfold call_tool_run rpc_request
    simp [h, call_tool]
  · intro h
    unfold call_tool_run
    rw [h]
    rfl
  · intro response e h1 h2
    unfold call_tool_run
    rw [h1]
    unfold call_tool
    simp [Json.hasKey, h2]

theorem C8_call_tool_outcomes_witness :
    dictGet (ClientState.mk [] [] [] [] []).active_processes "srv" =
      none ∧
    call_tool_run (ClientState.mk [] [] [] [] []) "srv" "mytool"
      (Json.obj []) true (fun _ => []) = none ∧
    call_tool_run (ClientState.mk [] [("srv", 7)] [("srv", [])]
        [("srv", 1)] [("srv", ())]) "srv" "mytool" (Json.obj []) true
      (fun _ => [some (Json.obj [("id", Json.num 1),
        ("error", Json.str "boom")])]) =
      some (Json.obj [("error", Json.str "boom")]) :=
  ⟨rfl,
    (C8_call_tool_outcomes (ClientState.mk [] [] [] [] []) "srv" "mytool"
      (Json.obj []) true (fun _ => [])).1 rfl,
    ((C8_call_tool_outcomes (ClientState.mk [] [("srv", 7)] [("srv", [])]
        [("srv", 1)] [("srv", ())]) "srv" "mytool" (Json.obj []) true
      (fun _ => [some (Json.obj [("id", Json.num 1),
        ("error", Json.str "boom")])])).2.2
      (Json.obj [("id", Json.num 1), ("error", Json.str "boom")])
      (Json.str "boom") rfl rfl).1⟩

/-- C1: round-trip correlation against an echo server.  For an active
server whose response queue exists and is empty and whose id counter and
lock exist, an rpc_request whose write succeeds and whose server echoes
every received request back as the result field of a same-id response
returns a response within the timeout, and the method field of that
response's result equals the method sent. -/
theorem C1_echo_roundtrip (st : ClientState) (name method : String)
    (params : Json) (ctr : Nat)
    (hact : (dictGet st.active_processes name).isSome)
    (hq : dictGet st.response_queues name = some [])
    (hc : dictGet st.id_counters name = some ctr)
    (hl : (dictGet st.counter_locks name).isSome) :
    (rpc_request st name method params true echo_lines).1.isSome = true ∧
    ((rpc_request st name method params true echo_lines).1.bind
        (fun resp => resp.get? "result")).bind
      (fun req => req.get? "method") = some (Json.str method) := by
  obtain ⟨lk, hl'⟩ := Option.isSome_iff_exists.mp hl
  have hactn : (dictGet st.active_processes name).isNone = false := by
    obtain ⟨p, hp⟩ := Option.isSome_iff_exists.mp hact
    simp [hp]
  unfold rpc_request
  rw [hactn, hq, hc, hl']
  simp only [Bool.false_eq_true, if_false, echo_lines, List.foldl_cons,
    List.foldl_nil]
  unfold process_server_output
  simp only [build_rpc_message, Json.get?, kvGet, Json.hasKey, Json.isDict]
  simp only [show (("jsonrpc" : String) = "id") = False by simp,
    show (("id" : String) = "id") = True by simp]
  simp [hq, dictGet_dictSet_self, Json.get?, kvGet]

theorem C1_echo_roundtrip_witness :
    dictGet (ClientState.mk [] [("srv", 7)] [("srv", [])] [("srv", 1)]
        [("srv", ())]).response_queues "srv" = some [] ∧
    ((rpc_request (ClientState.mk [] [("srv", 7)] [("srv", [])]
        [("srv", 1)] [("srv", ())]) "srv" "tools/list" (Json.obj [])
        true echo_lines).1.bind (fun resp => resp.get? "result")).bind
      (fun req => req.get? "method") = some (Json.str "tools/list") :=
  ⟨rfl,
    (C1_echo_roundtrip (ClientState.mk [] [("srv", 7)] [("srv", [])]
      [("srv", 1)] [("srv", ())]) "srv" "tools/list" (Json.obj []) 1
      rfl rfl rfl rfl).2⟩

/-- C4: after a successful start of a configured, previously inactive
server, any sequence of rpc_request calls against that server with no
intervening stop allocates the request ids 1, 2, ..., n in order: the
allocated ids are exactly the integer range starting at 1, strictly
increasing, and therefore unique within the server's lifetime. -/
theorem C4_request_ids (st : ClientState) (name : String) (pid : Nat)
    (cs : List RpcCallSpec)
    (hconf : (dictGet st.servers name).isSome)
    (hact : dictGet st.active_processes name = none) :
    (rpc_call_seq name cs (start_server st name (some pid)).2).1 =
      (List.range' 1 cs.length).map Int.ofNat ∧
    List.Pairwise (· < ·)
      (rpc_call_seq name cs (start_server st name (some pid)).2).1 ∧
    (rpc_call_seq name cs (start_server st name (some pid)).2).1.Nodup := by
  obtain ⟨cfg, hcfg⟩ := Option.isSome_iff_exists.mp hconf
  have h1 : (start_server st name (some pid)).2 =
      { st with
        active_processes := dictSet st.active_processes name pid
        response_queues := dictSet st.response_queues name []
        id_counters := dictSet st.id_counters name 1
        counter_locks := dictSet st.counter_locks name () } := by
    unfold start_server
    simp [hcfg, hact]
  have hids : (rpc_call_seq name cs (start_server st name (some pid)).2).1 =
      (List.range' 1 cs.length).map Int.ofNat := by
    rw [h1]
    exact rpc_call_seq_ids name cs _ 1
      (by simp [dictGet_dictSet_self])
      (by simp [dictGet_dictSet_self])
      (by simp [dictGet_dictSet_self])
      (by simp [dictGet_dictSet_self])
  have hpw : List.Pairwise (· < ·)
      ((List.range' 1 cs.length).map Int.ofNat) := by
    refine List.Pairwise.map _ ?_ (List.pairwise_lt_range' 1 cs.length)
    intro a b hab
    exact Int.ofNat_lt.mpr hab
  refine ⟨hids, ?_, ?_⟩
  · rw [hids]
    exact hpw
  · rw [hids]
    exact hpw.imp (fun h => ne_of_lt h)

theorem C4_request_ids_witness :
    (dictGet (ClientState.mk
        [("srv", MCPServerConfig.mk "srv" "cmd" [] [] none [])]
        [] [] [] []).servers "srv").isSome = true ∧
    (rpc_call_seq "srv"
        [RpcCallSpec.mk "ping" (Json.obj []) true (fun _ => []),
         RpcCallSpec.mk "pong" (Json.obj []) true (fun _ => [])]
        (start_server (ClientState.mk
          [("srv", MCPServerConfig.mk "srv" "cmd" [] [] none [])]
          [] [] [] []) "srv" (some 7)).2).1 =
      (List.range' 1 2).map Int.ofNat :=
  ⟨rfl,
    (C4_request_ids (ClientState.mk
        [("srv", MCPServerConfig.mk "srv" "cmd" [] [] none [])]
        [] [] [] []) "srv" 7
      [RpcCallSpec.mk "ping" (Json.obj []) true (fun _ => []),
       RpcCallSpec.mk "pong" (Json.obj []) true (fun _ => [])]
      rfl rfl).1⟩

theorem Json.get_none_of_not_truthy (r : Json) (k : String)
    (h : r.truthy = false) : r.get? k = none := by
  cases r with
  | null => rfl
  | bool b => rfl
  | num n => rfl
  | str s => rfl
  | arr xs => rfl
  | obj kvs =>
      cases kvs with
      | nil => rfl
      | cons a l => simp [Json.truthy] at h

theorem discover_via_rpc_spec (rpcResponse : Option Json) :
    (discover_tools_via_rpc rpcResponse).1 =
      (match specResultToolsList rpcResponse with
       | some ts =>
           if (extract_tool_names ts).isEmpty then none
           else some (extract_tool_names ts)
       | none => none) := by
  cases rpcResponse with
  | none => rfl
  | some r =>
      cases r with
      | null => rfl
      | bool b =>
          simp [discover_tools_via_rpc, specResultToolsList, Json.isDict,
            Json.truthy, Json.get?]
      | num n =>
          simp [discover_tools_via_rpc, specResultToolsList, Json.isDict,
            Json.truthy, Json.get?]
      | str s =>
          simp [discover_tools_via_rpc, specResultToolsList, Json.isDict,
            Json.truthy, Json.get?]
      | arr xs =>
          simp [discover_tools_via_rpc, specResultToolsList, Json.isDict,
            Json.truthy, Json.get?]
      | obj kvs =>
          cases kvs with
          | nil =>
              simp [discover_tools_via_rpc, specResultToolsList,
                Json.isDict, Json.truthy, Json.get?, kvGet]
          | cons hd tl =>
              simp only [discover_tools_via_rpc, specResultToolsList,
                Option.getD_some]
              rw [show (Json.obj (hd :: tl)).truthy = true from rfl,
                show (Json.obj (hd :: tl)).isDict = true from rfl]
              simp only [Bool.and_self, if_true]
              cases hres : (Json.obj (hd :: tl)).get? "result" with
              | none =>
                  simp [pyOr, Json.truthy, Json.isDict, Json.get?, kvGet]
              | some res =>
                  by_cases htr : res.truthy = true
                  · simp only [Option.getD_some, pyOr, htr, if_true]
                    cases hv : res.get? "tools" with
                    | none => simp [hv]
                    | some v =>
                        have hd2 : res.isDict = true :=
                          Json.isDict_of_hasKey res "tools"
                            (by simp [Json.hasKey, hv])
                        simp only [hd2, if_true, hv, Option.getD_some]
                        cases v with
                        | arr ts =>
                            cases he : (extract_tool_names ts).isEmpty <;>
                              simp [he]
                        | null => rfl
                        | bool b2 => rfl
                        | num n2 => rfl
                        | str s2 => rfl
                        | obj o2 => rfl
                  · have hne : res.truthy = false := by
                      cases hb : res.truthy
                      · rfl
                      · exact absurd hb htr
                    cases res with
                    | null =>
                        simp [pyOr, Json.truthy, Json.isDict, Json.get?,
                          kvGet]
                    | bool b2 =>
                        simp [pyOr, hne, Json.isDict, Json.get?, kvGet]
                    | num n2 =>
                        simp [pyOr, hne, Json.isDict, Json.get?, kvGet]
                    | str s2 =>
                        simp [pyOr, hne, Json.isDict, Json.get?, kvGet]
                    | arr xs2 =>
                        simp [pyOr, hne, Json.isDict, Json.get?, kvGet]
                    | obj o2 =>
                        simp only [Json.truthy] at hne
                        have ho : o2 = [] := by
                          cases o2 with
                          | nil => rfl
                          | cons a l => simp at hne
                        subst ho
                        simp [pyOr, Json.truthy, Json.isDict, Json.get?,
                          kvGet]

/-- C6 (amended): for a server whose config declares no tools, when the
tools/list rpc outcome is a response whose result holds a tools list,
discover_tools returns the names collected from that list provided the
collection is non-empty, and returns nothing when the collection is empty;
and it returns nothing whenever the result shape does not match or the
request timed out (no response). -/
theorem C6_discover_tools_protocol (cfg : MCPServerConfig)
    (rpcResponse : Option Json) (htools : cfg.tools = []) :
    (∀ ts, specResultToolsList rpcResponse = some ts →
      (discover_tools (some cfg) rpcResponse).1 =
        if (extract_tool_names ts).isEmpty then none
        else some (extract_tool_names ts)) ∧
    (specResultToolsList rpcResponse = none →
      (discover_tools (some cfg) rpcResponse).1 = none) := by
  have hvia : discover_tools (some cfg) rpcResponse =
      discover_tools_via_rpc rpcResponse := by
    simp [discover_tools, htools]
  constructor
  · intro ts hts
    rw [hvia, discover_via_rpc_spec, hts]
  · intro hnone
    rw [hvia, discover_via_rpc_spec, hnone]

theorem C6_discover_tools_protocol_witness :
    (MCPServerConfig.mk "srv" "cmd" [] [] none []).tools = [] ∧
    specResultToolsList (some (Json.obj [("id", Json.num 1),
        ("result", Json.obj [("tools", Json.arr [Json.str "t1"])])])) =
      some [Json.str "t1"] ∧
    (discover_tools (some (MCPServerConfig.mk "srv" "cmd" [] [] none []))
        (some (Json.obj [("id", Json.num 1),
          ("result", Json.obj [("tools", Json.arr [Json.str "t1"])])]))).1 =
      if (extract_tool_names [Json.str "t1"]).isEmpty then none
      else some (extract_tool_names [Json.str "t1"]) :=
  ⟨rfl, rfl,
    (C6_discover_tools_protocol
      (MCPServerConfig.mk "srv" "cmd" [] [] none [])
      (some (Json.obj [("id", Json.num 1),
        ("result", Json.obj [("tools", Json.arr [Json.str "t1"])])]))
      rfl).1 [Json.str "t1"] rfl⟩

/-- C6 counterexample to the claim as stated: with a config declaring no
tools and a timely response whose result holds a (here empty) tools list —
the shape matches and the request did not time out — discover_tools
returns nothing rather than the collected (empty) list of names, so it is
not the case that nothing is returned only when the shape mismatches or
the request timed out. -/
theorem C6_counterexample :
    specResultToolsList (some (Json.obj [("id", Json.num 1),
        ("result", Json.obj [("tools", Json.arr [])])])) = some [] ∧
    extract_tool_names [] = [] ∧
    (discover_tools (some (MCPServerConfig.mk "srv" "cmd" [] [] none []))
        (some (Json.obj [("id", Json.num 1),
          ("result", Json.obj [("tools", Json.arr [])])]))).1 ≠
      some (extract_tool_names []) :=
  ⟨rfl, rfl, fun h => Option.noConfusion h⟩
